import Mathlib

/-!
Shallow embedding of the finsightai-api repository (Python) in Lean 4.

Conventions of the embedding:
* Python floats are modelled as rationals (`ℚ`); `round(x, 2)` is `round2`,
  `int(x)` truncation toward zero is `intTrunc`.
* Python `None` inside data series is `Option`.
* Calls to external effectful dependencies (HTTP fetches, the news tool call
  inside a `try` block) are modelled by an explicit `Except String _` argument
  carrying either the fetched data or the raised exception's message.
* Wall-clock timestamps (`datetime.now()`) are modelled by explicit `ℕ`
  clock arguments where a claim needs them and omitted otherwise.
* Python dict-valued results with a fixed key set are modelled as structures.
-/

namespace FinsightAI

/-- `round(x, 2)`: rounding to 2 decimal places.  (Python rounds half to even
on binary floats; the claims never evaluate at exact half-cent values, so the
choice of half-rounding direction is immaterial here.) -/
def round2 (q : ℚ) : ℚ := (round (q * 100) : ℤ) / 100

/-- Python `int(x)`: truncation toward zero. -/
def intTrunc (q : ℚ) : ℤ := if 0 ≤ q then ⌊q⌋ else -⌊-q⌋

/-- Python slice `l[-k:]` (the last `k` elements, the whole list when shorter). -/
def takeLast {α : Type} (l : List α) (k : ℕ) : List α := l.drop (l.length - k)

/-- `"\n".join(lines)` -/
def joinLines : List String → String
  | [] => ""
  | [l] => l
  | l :: l2 :: ls => l ++ "\n" ++ joinLines (l2 :: ls)

/-- Python `min(list)` on a nonempty list (head-seeded fold). -/
def listMin (p : ℚ) (ps : List ℚ) : ℚ := ps.foldl min p

/-- Python `max(list)` on a nonempty list (head-seeded fold). -/
def listMax (p : ℚ) (ps : List ℚ) : ℚ := ps.foldl max p

/-- Two-decimal `f"{x:.2f}"` style rendering of a rational. -/
def fmtQ2 (q : ℚ) : String :=
  let c : ℤ := round (q * 100)
  let sgn := if c < 0 then "-" else ""
  let a := c.natAbs
  let r := a % 100
  sgn ++ toString (a / 100) ++ "." ++ (if r < 10 then "0" else "") ++ toString r

/-- Rendering of a number inside an f-string (`f"{x}% gain"`).  Abstraction of
Python float formatting; no claim depends on the exact digits. -/
def pyNumStr (q : ℚ) : String := toString q.num ++ (if q.den = 1 then "" else "/" ++ toString q.den)

/-- `s` ends with `post` (used to state "the literal current question last"). -/
def endsWithStr (s post : String) : Bool := post.data.isSuffixOf s.data

/-- Python `s.upper()`: `String.toUpper`, written over the character list. -/
def pyUpper (s : String) : String := String.mk (s.data.map Char.toUpper)

/-! ## Price tool (`app/agents/tools/price_tool.py`) -/

/-- The series extracted from the upstream chart payload
(`result.indicators.quote[0]` plus closes); entries may be null. -/
structure RawChart where
  highs : List (Option ℚ)
  lows : List (Option ℚ)
  closes : List (Option ℚ)
  volumes : List (Option ℚ)
deriving DecidableEq, Repr

/-- The `moving_averages` dict; `none` at the use site models the empty dict. -/
structure MovingAverages where
  ma20 : ℚ
  ma50 : ℚ
deriving DecidableEq, Repr

/-- `PriceAnalysisResult` (pydantic model); the wall-clock `timestamp` and the
always-`None` `rsi` field are omitted. -/
structure PriceAnalysisResult where
  symbol : String
  current_price : ℚ
  price_change_percentage : ℚ
  price_range : String
  trend_direction : String
  volume_trend : String
  support_levels : List ℚ
  resistance_levels : List ℚ
  moving_averages : Option MovingAverages
deriving DecidableEq, Repr

/-- `PriceAnalysisTool._calculate_support_resistance`. -/
def calcSupportResistance (prices : List (Option ℚ)) (levelType : String) : List ℚ :=
  match prices with
  | [] => []
  | _ :: _ =>
    match prices.filterMap id with
    | [] => []
    | p :: ps =>
      let valid := p :: ps
      let n := valid.length
      let sorted := valid.insertionSort (· ≤ ·)
      let levels :=
        if levelType = "support" then
          if n > 10 then [listMin p ps, sorted.getD (n / 10) 0] else [listMin p ps]
        else
          if n > 10 then [listMax p ps, sorted.getD (n - (n + 9) / 10) 0] else [listMax p ps]
      levels.map round2

/-- `PriceAnalysisTool._calculate_moving_averages`.  `sorted[-n // 10]` of the
source is index `n - ceil(n/10)` from the front; `valid[-20:]` is `takeLast`. -/
def calcMovingAverages (prices : List (Option ℚ)) : Option MovingAverages :=
  match prices.filterMap id with
  | [] => none
  | p :: ps =>
    let valid := p :: ps
    let n := valid.length
    let ma20 : ℚ := if n ≥ 5 then (takeLast valid 20).sum / (min 20 n : ℕ) else valid.getLastD 0
    let ma50 : ℚ := if n ≥ 10 then (takeLast valid 50).sum / (min 50 n : ℕ) else ma20
    some ⟨round2 ma20, round2 ma50⟩

/-- `current_price = closes[-1] if closes else 0` (possibly null). -/
def currentPriceOpt (closes : List (Option ℚ)) : Option ℚ :=
  match closes with
  | [] => some 0
  | _ :: _ => closes.getLastD none

/-- `start_price = closes[0] if closes else current_price` (possibly null). -/
def startPriceOpt (closes : List (Option ℚ)) : Option ℚ :=
  match closes with
  | [] => currentPriceOpt closes
  | c :: _ => c

/-- `price_change_pct = ((current - start)/start * 100) if start_price else 0`;
a null `current_price` with a truthy `start_price` raises `TypeError`. -/
def priceChangePctE (closes : List (Option ℚ)) : Except String ℚ :=
  match startPriceOpt closes with
  | some s =>
    if s ≠ 0 then
      match currentPriceOpt closes with
      | some c => .ok ((c - s) / s * 100)
      | none => .error "TypeError"
    else .ok 0
  | none => .ok 0

/-- `price_range = f"${min}-${max}"` over non-null lows/highs, else `"N/A"`. -/
def priceRangeStr (highs lows : List (Option ℚ)) : String :=
  match highs.filterMap id, lows.filterMap id with
  | hh :: hs, ll :: ls => "$" ++ fmtQ2 (listMin ll ls) ++ "-$" ++ fmtQ2 (listMax hh hs)
  | _, _ => "N/A"

/-- `recent_trend`: last close versus `closes[-5]`; a null operand of the
comparison raises `TypeError`. -/
def trendDirectionE (closes : List (Option ℚ)) : Except String String :=
  if closes.length ≥ 5 then
    match closes.getLastD none, closes.getD (closes.length - 5) none with
    | some a, some b =>
      .ok (if a > b then "bullish" else if a < b then "bearish" else "neutral")
    | _, _ => .error "TypeError"
  else .ok "neutral"

/-- `volume_trend`: mean of last 5 non-null volumes versus mean of the
preceding 5 (`volumes[-10:-5]`). -/
def volumeTrendStr (volumes : List (Option ℚ)) : String :=
  if volumes.length ≥ 5 then
    match takeLast volumes 5 |>.filterMap id with
    | [] => "unknown"
    | v :: vs =>
      let recentVolume : ℚ := (v :: vs).sum / ((v :: vs).length : ℕ)
      let earlierVolumes :=
        ((volumes.drop (volumes.length - 10)).take
          (volumes.length - 5 - (volumes.length - 10))).filterMap id
      let earlierVolume : ℚ :=
        match earlierVolumes with
        | [] => recentVolume
        | e :: es => (e :: es).sum / ((e :: es).length : ℕ)
      if recentVolume > earlierVolume then "increasing" else "decreasing"
  else "stable"

/-- The derivation in the body of `get_price_data` (source lines 97-143),
applied to an already-fetched chart.  Returns `.error` exactly where the
Python body would raise: comparing or subtracting a null close (`TypeError`),
or validating a null `current_price` into the float field of the pydantic
result (`ValidationError`). -/
def deriveResult (symbol : String) (raw : RawChart) : Except String PriceAnalysisResult :=
  match priceChangePctE raw.closes with
  | .error e => .error e
  | .ok priceChangePct =>
    match trendDirectionE raw.closes with
    | .error e => .error e
    | .ok recentTrend =>
      match currentPriceOpt raw.closes with
      | none => .error "ValidationError"
      | some cp =>
        .ok { symbol := symbol
              current_price := cp
              price_change_percentage := round2 priceChangePct
              price_range := priceRangeStr raw.highs raw.lows
              trend_direction := recentTrend
              volume_trend := volumeTrendStr raw.volumes
              support_levels := calcSupportResistance raw.lows "support"
              resistance_levels := calcSupportResistance raw.highs "resistance"
              moving_averages := calcMovingAverages raw.closes }

/-- `PriceAnalysisTool.get_price_data`: the whole body sits in a
`try/except` that logs and falls through (returning `None`); `fetchOutcome`
is the outcome of the HTTP fetch plus payload destructuring. -/
def getPriceData (symbol : String) (fetchOutcome : Except String RawChart) :
    Option PriceAnalysisResult :=
  match fetchOutcome with
  | .error _ => none
  | .ok raw =>
    match deriveResult symbol raw with
    | .ok r => some r
    | .error _ => none

/-! ## News tool (`app/agents/tools/news_tool.py`) -/

/-- `NewsArticle` (pydantic model); `published_at` carries the mock's day
offset abstractly and is otherwise irrelevant to the claims. -/
structure NewsArticle where
  title : String
  source : String
  published_at : String
  description : Option String
  url : Option String
  sentiment : Option String
deriving DecidableEq, Repr

/-- `NewsAnalysisResult` (pydantic model); wall-clock `timestamp` omitted. -/
structure NewsAnalysisResult where
  symbol : String
  articles : List NewsArticle
  overall_sentiment : String
  fear_greed_index : Option ℤ
  key_themes : List String
deriving DecidableEq, Repr

/-- `[a.sentiment for a in articles if a.sentiment]`: Python truthiness keeps
sentiments that are neither `None` nor the empty string. -/
def truthySentiments (articles : List NewsArticle) : List String :=
  articles.filterMap fun a =>
    match a.sentiment with
    | some s => if s = "" then none else some s
    | none => none

/-- `NewsAnalysisTool._calculate_overall_sentiment`: majority vote, ties give
`"neutral"`. -/
def calculateOverallSentiment (articles : List NewsArticle) : String :=
  match articles with
  | [] => "neutral"
  | _ :: _ =>
    let sentiments := truthySentiments articles
    let positiveCount := sentiments.count "positive"
    let negativeCount := sentiments.count "negative"
    if positiveCount > negativeCount then "positive"
    else if negativeCount > positiveCount then "negative"
    else "neutral"

/-- `NewsAnalysisTool._calculate_fear_greed_index`. -/
def calculateFearGreedIndex (articles : List NewsArticle) : ℤ :=
  match articles with
  | [] => 50
  | _ :: _ =>
    let sentiments := truthySentiments articles
    let positiveCount := sentiments.count "positive"
    let total := sentiments.length
    if total = 0 then 50
    else
      let baseScore : ℚ := ((positiveCount : ℚ) / (total : ℚ)) * 100
      let overall := calculateOverallSentiment articles
      let adjustment : ℚ :=
        if overall = "positive" then 10 else if overall = "negative" then -10 else 0
      max 0 (min 100 (intTrunc (baseScore + adjustment)))

/-- Python `needle in hay` on strings, as a scan over the character list. -/
def isSubstring (needle : List Char) : List Char → Bool
  | [] => needle.isEmpty
  | c :: t => needle.isPrefixOf (c :: t) || isSubstring needle t

/-- One keyword of `words` occurs as a substring of `title.toLower`. -/
def titleHasAny (title : String) (words : List String) : Bool :=
  words.any fun w => isSubstring w.data title.toLower.data

/-- `NewsAnalysisTool._extract_key_themes`.  Python finishes with
`list(set(themes))[:5]` whose set order is hash-dependent; the embedding
keeps first occurrences (`eraseDups`), which no claim depends on. -/
def extractKeyThemes (articles : List NewsArticle) : List String :=
  let themes := articles.flatMap fun a =>
    (if titleHasAny a.title ["earnings", "profit", "revenue"] then ["Financial Performance"] else [])
    ++ (if titleHasAny a.title ["product", "launch", "release"] then ["Product Development"] else [])
    ++ (if titleHasAny a.title ["regulation", "legal", "law"] then ["Regulatory Environment"] else [])
    ++ (if titleHasAny a.title ["partnership", "deal", "acquisition"] then ["Business Partnerships"] else [])
    ++ (if titleHasAny a.title ["market", "trading", "volume"] then ["Market Activity"] else [])
  themes.eraseDups.take 5

/-- The per-symbol mock table of `_get_mock_news` (title, source, sentiment),
with the generic fallback entry for unknown symbols. -/
def mockNewsTable (symbolUpper : String) : List (String × String × String) :=
  if symbolUpper = "AAPL" then
    [("Apple announces record iPhone sales", "Bloomberg", "positive"),
     ("New Apple AI features impress analysts", "CNBC", "positive"),
     ("Apple faces regulatory challenges in EU", "Reuters", "negative")]
  else if symbolUpper = "TSLA" then
    [("Tesla deliveries exceed expectations", "Wall Street Journal", "positive"),
     ("New Tesla factory accelerates production", "Bloomberg", "positive"),
     ("Tesla faces competition from legacy automakers", "Reuters", "negative")]
  else if symbolUpper = "BTC" then
    [("Bitcoin ETF approvals drive institutional adoption", "CoinDesk", "positive"),
     ("Regulatory clarity improves for cryptocurrencies", "Bloomberg", "positive"),
     ("Market volatility concerns persist", "Reuters", "negative")]
  else
    [("Strong quarterly earnings reported", "Financial Times", "positive"),
     ("Market shows positive momentum", "Bloomberg", "positive"),
     ("Economic uncertainty affects performance", "Reuters", "negative")]

/-- `NewsAnalysisTool._get_mock_news`; `published_at` abstracts the
`now - i days` stamp by the index. -/
def getMockNews (symbol : String) (maxResults : ℕ) : NewsAnalysisResult :=
  let symbolNews := mockNewsTable (pyUpper symbol)
  let articles := (symbolNews.take maxResults).enum.map fun item =>
    { title := item.2.1
      source := item.2.2.1
      published_at := "day-" ++ toString item.1
      description := none
      url := none
      sentiment := some item.2.2.2 : NewsArticle }
  { symbol := symbol
    articles := articles
    overall_sentiment := calculateOverallSentiment articles
    fear_greed_index := some (calculateFearGreedIndex articles)
    key_themes := extractKeyThemes articles }

/-- `NewsAnalysisTool.get_financial_news`: with a configured key, the live
fetch (`liveOutcome` models `_get_real_news`); without a key, or when the
live path raises, the mock table. -/
def getFinancialNews (apiKey : Option String) (liveOutcome : Except String NewsAnalysisResult)
    (symbol : String) (maxResults : ℕ) : NewsAnalysisResult :=
  match apiKey with
  | some _ =>
    match liveOutcome with
    | .ok r => r
    | .error _ => getMockNews symbol maxResults
  | none => getMockNews symbol maxResults

/-! ## Agent-facing tool layer (`app/agents/tools/agent_tool.py`) -/

/-- The dict returned by `AgentTools._get_price_analysis_impl`. -/
structure PriceResponse where
  symbol : String
  current_price : ℚ
  price_change_percentage : ℚ
  price_range : String
  trend_direction : String
  volume_trend : String
  support_levels : List ℚ
  resistance_levels : List ℚ
  moving_averages : Option MovingAverages
  analysis_period : String
  error : Option String
deriving DecidableEq, Repr

/-- The dict returned by `AgentTools._get_news_sentiment_impl`. -/
structure NewsSentimentResponse where
  symbol : String
  overall_sentiment : String
  fear_greed_index : Option ℤ
  key_themes : List String
  top_headlines : List String
  article_sentiments : List String
  risk_factors : List String
deriving DecidableEq, Repr

/-- `AgentTools._get_price_analysis_impl`.  `get_price_data` itself never
raises (it returns `None` after absorbing an exception); the `except` branch
of the impl fires on the resulting `AttributeError` when the response dict is
built from `None`. -/
def getPriceAnalysisImpl (symbol period : String) (fetchOutcome : Except String RawChart) :
    PriceResponse :=
  match getPriceData symbol fetchOutcome with
  | some r =>
    { symbol := r.symbol
      current_price := r.current_price
      price_change_percentage := r.price_change_percentage
      price_range := r.price_range
      trend_direction := r.trend_direction
      volume_trend := r.volume_trend
      support_levels := r.support_levels
      resistance_levels := r.resistance_levels
      moving_averages := r.moving_averages
      analysis_period := period
      error := none }
  | none =>
    { symbol := symbol
      current_price := 0
      price_change_percentage := 0
      price_range := "N/A"
      trend_direction := "unknown"
      volume_trend := "unknown"
      support_levels := []
      resistance_levels := []
      moving_averages := none
      analysis_period := period
      error := some "Failed to get price data: \x27NoneType\x27 object has no attribute \x27symbol\x27" }

/-- `AgentTools._get_news_sentiment_impl` given the outcome of the awaited
`get_financial_news` call (`.error` models that call raising). -/
def getNewsSentimentImpl (symbol : String) (callOutcome : Except String NewsAnalysisResult) :
    NewsSentimentResponse :=
  match callOutcome with
  | .ok result =>
    { symbol := result.symbol
      overall_sentiment := result.overall_sentiment
      fear_greed_index := result.fear_greed_index
      key_themes := result.key_themes
      top_headlines := result.articles.map (·.title)
      article_sentiments := truthySentiments result.articles
      risk_factors :=
        (result.articles.filter (fun a => a.sentiment = some "negative")).map
          (fun a => "Negative news: " ++ a.title) }
  | .error e =>
    { symbol := symbol
      overall_sentiment := "neutral"
      fear_greed_index := some 50
      key_themes := []
      top_headlines := []
      article_sentiments := []
      risk_factors := ["Data unavailable: " ++ e] }

/-- `_get_news_sentiment_impl` composed with the actual `get_financial_news`
body (which is total: it absorbs live-fetch failures into mock data, so the
impl's `except` branch never fires on a fetch failure). -/
def getNewsSentiment (symbol : String) (maxResults : ℕ) (apiKey : Option String)
    (liveOutcome : Except String NewsAnalysisResult) : NewsSentimentResponse :=
  getNewsSentimentImpl symbol (.ok (getFinancialNews apiKey liveOutcome symbol maxResults))

/-- `return insights[:5] if insights else [...]` — the final wrap of
`_generate_combined_insights`. -/
def finalizeInsights (insights : List String) : List String :=
  match insights with
  | [] => ["Analysis completed with available market data"]
  | _ :: _ => insights.take 5

/-- The `insights` list accumulated by `_generate_combined_insights` before
the final wrap.  The one raise point reachable in the typed model is
`fear_greed > 70` when `fear_greed_index` is `None` (a Python `TypeError`),
which the surrounding `try/except` converts into the "Limited insights"
entry appended to the insights gathered so far. -/
def rawCombinedInsights (priceData : PriceResponse) (newsData : NewsSentimentResponse) :
    List String :=
  let priceInsights :=
    if priceData.current_price > 0 then
      (if priceData.trend_direction = "bullish" then
        ["Strong upward momentum with " ++ pyNumStr priceData.price_change_percentage
          ++ "% gain over the period"]
       else if priceData.trend_direction = "bearish" then
        ["Facing downward pressure with " ++ pyNumStr priceData.price_change_percentage
          ++ "% decline"]
       else [])
      ++ (if priceData.volume_trend = "increasing" then
            ["Increasing trading volume supports the price trend"] else [])
    else []
  let sentimentInsights :=
    if newsData.overall_sentiment = "positive" then
      ["Positive market sentiment aligns with recent news flow"]
    else if newsData.overall_sentiment = "negative" then
      ["Market sentiment shows concerns that may impact performance"]
    else []
  match newsData.fear_greed_index with
  | none =>
    priceInsights ++ sentimentInsights ++ ["Limited insights available due to data constraints"]
  | some fearGreed =>
    let fearGreedInsights :=
      if fearGreed > 70 then ["High greed index suggests optimistic market sentiment"]
      else if fearGreed < 30 then ["Low fear index may indicate potential buying opportunity"]
      else []
    let headlineInsights :=
      match newsData.top_headlines with
      | [] => []
      | hs => ["Recent news includes " ++ toString hs.length ++ " key developments"]
    priceInsights ++ sentimentInsights ++ fearGreedInsights ++ headlineInsights

/-- `AgentTools._generate_combined_insights`. -/
def generateCombinedInsights (priceData : PriceResponse) (newsData : NewsSentimentResponse) :
    List String :=
  finalizeInsights (rawCombinedInsights priceData newsData)

/-- The `key_insights` of `AgentTools.get_comprehensive_analysis` (the claims
only concern this field of the combined response): price and news impls run
sequentially, then `_generate_combined_insights` over both results. -/
def comprehensiveKeyInsights (symbol period : String) (fetchOutcome : Except String RawChart)
    (apiKey : Option String) (liveNews : Except String NewsAnalysisResult) : List String :=
  generateCombinedInsights (getPriceAnalysisImpl symbol period fetchOutcome)
    (getNewsSentiment symbol 5 apiKey liveNews)

/-! ## Conversation store (`app/repositories/conversation_repository.py`) -/

/-- One entry of `ConversationHistory.messages`; `timestamp` is the logical
clock value at append time. -/
structure StoredMsg where
  role : String
  content : String
  timestamp : ℕ
deriving DecidableEq, Repr

/-- `ConversationHistory` (pydantic model of `app/models/schemas.py`). -/
structure Conversation where
  conversation_id : String
  user_id : String
  messages : List StoredMsg
  created_at : ℕ
  updated_at : ℕ
deriving DecidableEq, Repr

/-- The process-local `_conversations` mapping. -/
def Repo : Type := String → Option Conversation

/-- `ConversationRepository.create_conversation`, with the generated
`uuid4` id and the clock passed explicitly. -/
def createConversation (repo : Repo) (conversationId userId : String) (now : ℕ) : Repo :=
  fun id =>
    if id = conversationId then
      some { conversation_id := conversationId
             user_id := userId
             messages := []
             created_at := now
             updated_at := now }
    else repo id

/-- `ConversationRepository.get_conversation` (raises `ValueError` when the
id is unknown). -/
def getConversation (repo : Repo) (conversationId : String) : Except String Conversation :=
  match repo conversationId with
  | some c => .ok c
  | none => .error ("Conversation " ++ conversationId ++ " not found")

/-- `ConversationRepository.get_conversation_messages`. -/
def getConversationMessages (repo : Repo) (conversationId : String) :
    Except String (List StoredMsg) :=
  (getConversation repo conversationId).map (·.messages)

/-- `ConversationRepository.add_message`: append one turn and bump
`updated_at` to the current clock. -/
def addMessage (repo : Repo) (conversationId role content : String) (now : ℕ) :
    Except String Repo :=
  match repo conversationId with
  | none => .error ("Conversation " ++ conversationId ++ " not found")
  | some conv =>
    .ok fun id =>
      if id = conversationId then
        some { conv with
               messages := conv.messages ++ [{ role := role, content := content, timestamp := now }]
               updated_at := now }
      else repo id

/-- A sequence of `add_message` calls against one conversation id, in call
order (each entry is a (role, content, clock) triple). -/
def runAppends (repo : Repo) (conversationId : String) :
    List (String × String × ℕ) → Except String Repo
  | [] => .ok repo
  | (role, content, now) :: rest =>
    match addMessage repo conversationId role content now with
    | .error e => .error e
    | .ok repo2 => runAppends repo2 conversationId rest

/-! ## Orchestration service (`app/services/financial_manager_service.py`,
the second — reachable — `process_message` definition and its helpers) -/

/-- One history entry as seen by `_enhance_message_with_context`
(`msg["role"]`, `msg["content"]`). -/
def renderHistoryLine (m : StoredMsg) : String :=
  (if m.role = "user" then "User" else "Assistant") ++ ": " ++ m.content

/-- Python `str(dict)` for a string-valued dict, e.g. `{'k': 'v'}`. -/
def reprDict (ctx : List (String × String)) : String :=
  "\x7b" ++ String.intercalate ", "
    (ctx.map fun kv => "\x27" ++ kv.1 ++ "\x27: \x27" ++ kv.2 ++ "\x27") ++ "\x7d"

/-- The history block of the context lines: header, the last 6 turns, and a
blank line — empty when there is no history. -/
def histLines (history : List StoredMsg) : List String :=
  match history with
  | [] => []
  | _ :: _ => ["Previous conversation:"] ++ (takeLast history 6).map renderHistoryLine ++ [""]

/-- The user-context block of the context lines — empty when no context. -/
def ctxLines (userContext : List (String × String)) : List String :=
  match userContext with
  | [] => []
  | _ :: _ =>
    ["User context:"] ++ userContext.map (fun kv => "- " ++ kv.1 ++ ": " ++ kv.2) ++ [""]

/-- The `context_lines` list assembled by `_enhance_message_with_context`
(history block, user-context block, then the current question). -/
def enhanceContextLines (message : String) (history : List StoredMsg)
    (userContext : List (String × String)) : List String :=
  histLines history ++ ctxLines userContext ++ ["Current question: " ++ message]

/-- `AgentService._enhance_message_with_context`: user context is a
string-valued dict (the embedding renders dict values with their `str`
form directly). -/
def enhanceMessageWithContext (message : String) (history : List StoredMsg)
    (userContext : List (String × String)) (conversationId : String) : String :=
  let enhancedMessage := joinLines (enhanceContextLines message history userContext)
  if enhancedMessage.length > 4000 then
    match userContext with
    | [] => "Conversation ID: " ++ conversationId ++ "\n\nQuestion: " ++ message
    | _ :: _ => "Conversation ID: " ++ conversationId ++ "\n\nQuestion: " ++ message
        ++ "\n\nUser context: " ++ reprDict userContext
  else enhancedMessage

/-- `ChatResponse` envelope (metadata fields not bearing on the claims are
omitted). -/
structure ChatResponse where
  response : String
  conversation_id : String
  agent_type : String
  timestamp : ℕ
deriving DecidableEq, Repr

/-- Steps 2-7 of `AgentService.process_message` (the reachable definition),
after the conversation id has been resolved to `cid` with repository state
`repo1`.  Explicit arguments model its effectful collaborators:
`agentAvailable` is whether `_get_agent` finds the requested agent type, and
`agentOutcome` the outcome of `_run_agent_with_tools` followed by
`_extract_response_text` (a response text, or the message of the exception
that escaped all retries).  Returns the result together with the repository
state at exit. -/
def processMessageCore (repo1 : Repo) (cid : String) (message agentType : String)
    (context : List (String × String)) (now : ℕ) (agentAvailable : Bool)
    (agentOutcome : Except String String) : Except String ChatResponse × Repo :=
  if !agentAvailable then
    (.error ("Message processing failed: Agent type " ++ agentType ++ " not available"), repo1)
  else
    match getConversationMessages repo1 cid with
    | .error e => (.error ("Message processing failed: " ++ e), repo1)
    | .ok history =>
      let _enhanced := enhanceMessageWithContext message history context cid
      match agentOutcome with
      | .error e => (.error ("Message processing failed: " ++ e), repo1)
      | .ok responseText =>
        match addMessage repo1 cid "user" message now with
        | .error e => (.error ("Message processing failed: " ++ e), repo1)
        | .ok repo2 =>
          match addMessage repo2 cid "assistant" responseText now with
          | .error e => (.error ("Message processing failed: " ++ e), repo2)
          | .ok repo3 =>
            (.ok { response := responseText
                   conversation_id := cid
                   agent_type := agentType
                   timestamp := now }, repo3)

/-- Step 1 of `process_message`: `if not conversation_id:` create a fresh
conversation (`""` is falsy like `None`), else use the given id. -/
def processMessage (repo : Repo) (message : String) (agentType : String)
    (conversationId : Option String) (context : List (String × String))
    (freshId : String) (now : ℕ) (agentAvailable : Bool)
    (agentOutcome : Except String String) : Except String ChatResponse × Repo :=
  match conversationId with
  | none =>
    processMessageCore (createConversation repo freshId "anonymous" now) freshId
      message agentType context now agentAvailable agentOutcome
  | some cid =>
    if cid = "" then
      processMessageCore (createConversation repo freshId "anonymous" now) freshId
        message agentType context now agentAvailable agentOutcome
    else
      processMessageCore repo cid message agentType context now agentAvailable agentOutcome

/-! ## Auxiliary definitions used only by the verification statements -/

/-- The `(role, content, clock)` triple of one `add_message` call, as a
stored turn. -/
def mkStored (a : String × String × ℕ) : StoredMsg :=
  { role := a.1, content := a.2.1, timestamp := a.2.2 }

/-- The conversation after one append: the turn pushed at the end and
`updated_at` bumped. -/
def pushTurn (conv : Conversation) (role content : String) (now : ℕ) : Conversation :=
  { conv with
    messages := conv.messages ++ [{ role := role, content := content, timestamp := now }]
    updated_at := now }

/-- The flat 30-sample chart of the spec scenario: all series constant. -/
def flatChart : RawChart :=
  { highs := List.replicate 30 (some 100)
    lows := List.replicate 30 (some 100)
    closes := List.replicate 30 (some 100)
    volumes := List.replicate 30 (some 1000) }

/-- A 4000-character history entry, used to drive the prompt over the
4000-character budget. -/
def bigContent : String := String.mk (List.replicate 4000 (Char.ofNat 97))

/-- A small three-sample chart used to witness the C2 derivation. -/
def witChart : RawChart :=
  { highs := [], lows := [], closes := [some 1, some 2, some 3], volumes := [] }

/-- A chart whose derivation raises (`closes[-1]` is null while `closes[0]`
is truthy, so the change computation hits a `TypeError`). -/
def errChart : RawChart :=
  { highs := [], lows := [], closes := [some 1, none], volumes := [] }

/-- A single positive-sentiment article, used as a witness input. -/
def witArticle : NewsArticle :=
  { title := "t", source := "s", published_at := "", description := none, url := none,
    sentiment := some "positive" }

/-- The placeholder price record of the `_get_price_analysis_impl` error
branch. -/
def zeroPriceResponse (symbol period : String) : PriceResponse :=
  { symbol := symbol, current_price := 0, price_change_percentage := 0,
    price_range := "N/A", trend_direction := "unknown", volume_trend := "unknown",
    support_levels := [], resistance_levels := [], moving_averages := none,
    analysis_period := period,
    error := some "Failed to get price data: \x27NoneType\x27 object has no attribute \x27symbol\x27" }

/-- The neutral placeholder of the `_get_news_sentiment_impl` error branch. -/
def neutralNewsResponse (symbol e : String) : NewsSentimentResponse :=
  { symbol := symbol, overall_sentiment := "neutral", fear_greed_index := some 50,
    key_themes := [], top_headlines := [], article_sentiments := [],
    risk_factors := ["Data unavailable: " ++ e] }

/-- A price result mapping with a zero price but a bullish trend (the C4
counterexample input). -/
def cxPrice : PriceResponse :=
  { symbol := "X", current_price := 0, price_change_percentage := 5,
    price_range := "N/A", trend_direction := "bullish", volume_trend := "increasing",
    support_levels := [], resistance_levels := [], moving_averages := none,
    analysis_period := "1month", error := none }

/-- A fully neutral news result mapping (the C4 counterexample input). -/
def cxNews : NewsSentimentResponse :=
  { symbol := "X", overall_sentiment := "neutral", fear_greed_index := some 50,
    key_themes := [], top_headlines := [], article_sentiments := [], risk_factors := [] }

/-- The conversation id `process_message` step 1 resolves to. -/
def resolvedCid (conversationId : Option String) (freshId : String) : String :=
  if conversationId.getD "" = "" then freshId else conversationId.getD ""

/-- The repository state after `process_message` step 1. -/
def resolvedRepo (repo : Repo) (conversationId : Option String) (freshId : String)
    (now : ℕ) : Repo :=
  if conversationId.getD "" = "" then createConversation repo freshId "anonymous" now else repo

/-- The over-budget fallback prompt of `_enhance_message_with_context`
(before the optional user-context tail). -/
def simplifiedPrompt (conversationId message : String) : String :=
  "Conversation ID: " ++ conversationId ++ "\n\nQuestion: " ++ message

/-- The insight rule list exactly as the claim describes it, amended only by
the `current_price > 0` gate on the two price-based phrases (the gate the
code imposes and the claim omits): fixed order, fixed phrases. -/
def specInsightRules (p : PriceResponse) (n : NewsSentimentResponse) (g : ℤ) : List String :=
  (if p.current_price > 0 ∧ p.trend_direction = "bullish" then
    ["Strong upward momentum with " ++ pyNumStr p.price_change_percentage
      ++ "% gain over the period"] else [])
  ++ (if p.current_price > 0 ∧ p.trend_direction = "bearish" then
    ["Facing downward pressure with " ++ pyNumStr p.price_change_percentage ++ "% decline"]
    else [])
  ++ (if p.current_price > 0 ∧ p.volume_trend = "increasing" then
    ["Increasing trading volume supports the price trend"] else [])
  ++ (if n.overall_sentiment = "positive" then
    ["Positive market sentiment aligns with recent news flow"] else [])
  ++ (if n.overall_sentiment = "negative" then
    ["Market sentiment shows concerns that may impact performance"] else [])
  ++ (if g > 70 then ["High greed index suggests optimistic market sentiment"] else [])
  ++ (if g < 30 then ["Low fear index may indicate potential buying opportunity"] else [])
  ++ (if n.top_headlines ≠ [] then
    ["Recent news includes " ++ toString n.top_headlines.length ++ " key developments"] else [])

/-! ## Helper lemmas -/

lemma getLastD_map_some (c : ℚ) (l : List ℚ) :
    (some c :: l.map some).getLastD none = some ((c :: l).getLastD 0) := by
  have h2 : (some c :: l.map some) = (c :: l).map some := by simp
  rw [h2, List.getLastD_eq_getLast?, List.getLastD_eq_getLast?, List.getLast?_map]
  cases h : (c :: l).getLast? with
  | none => simp at h
  | some v => simp

lemma getD_map_some_plain (l : List ℚ) (i : ℕ) (h : i < l.length) :
    (l.map some).getD i none = some (l.getD i 0) := by
  simp [List.getD_eq_getElem?_getD, List.getElem?_map, List.getElem?_eq_getElem h]

lemma getD_map_some (c : ℚ) (l : List ℚ) (i : ℕ) (h : i < l.length + 1) :
    (some c :: l.map some).getD i none = some ((c :: l).getD i 0) := by
  cases i with
  | zero => rfl
  | succ j =>
    have hj : j < l.length := by omega
    simpa [List.getD_cons_succ] using getD_map_some_plain l j hj

lemma deriveResult_all_some (symbol : String) (raw : RawChart) (c : ℚ) (cs' : List ℚ)
    (hcs : raw.closes = (c :: cs').map some) :
    ∃ r, deriveResult symbol raw = .ok r ∧
      r.current_price = (c :: cs').getLastD 0 ∧
      r.price_change_percentage =
        round2 (if c = 0 then 0 else (((c :: cs').getLastD 0 - c) / c * 100)) ∧
      (5 ≤ cs'.length + 1 →
        r.trend_direction =
          (if (c :: cs').getLastD 0 > (c :: cs').getD (cs'.length + 1 - 5) 0 then "bullish"
           else if (c :: cs').getLastD 0 < (c :: cs').getD (cs'.length + 1 - 5) 0 then "bearish"
           else "neutral")) ∧
      (cs'.length + 1 < 5 → r.trend_direction = "neutral") := by
  have hgetD : cs'.length + 1 - 5 < cs'.length + 1 := by omega
  by_cases hc : c = 0 <;> by_cases hlen : 5 ≤ cs'.length + 1 <;>
    simp only [deriveResult, priceChangePctE, startPriceOpt, currentPriceOpt, trendDirectionE,
      hcs, List.map_cons, getLastD_map_some, List.length_cons,
      List.length_map, getD_map_some _ _ _ hgetD, hc, hlen, if_true, if_false,
      ite_true, ite_false, ne_eq, not_true, not_false_iff, ge_iff_le] <;>
    simp [hlen, hc]

/-! ## Claims -/

/-- Claim C2: for every non-empty closes series, `get_price_data` sets
`current_price` to the last close exactly and `price_change_percentage` to
`round((last - first)/first * 100, 2)` (0 when the first close is 0 or
absent); `trend_direction` compares the last close with the close 5 samples
back (`closes[-5]`), with "neutral" whenever fewer than 5 samples exist; the
flat 30-sample series at 100 yields trend "neutral", change 0 and a
`MA_20` of 100. -/
theorem c2_price_data_derivation :
    (∀ (symbol : String) (raw : RawChart) (cs : List ℚ),
      raw.closes = cs.map some → cs ≠ [] →
      ∃ r, deriveResult symbol raw = .ok r ∧
        r.current_price = cs.getLastD 0 ∧
        r.price_change_percentage =
          round2 (if cs.headD 0 = 0 then 0
                  else ((cs.getLastD 0 - cs.headD 0) / cs.headD 0 * 100)) ∧
        (5 ≤ cs.length →
          r.trend_direction =
            (if cs.getLastD 0 > cs.getD (cs.length - 5) 0 then "bullish"
             else if cs.getLastD 0 < cs.getD (cs.length - 5) 0 then "bearish"
             else "neutral")) ∧
        (cs.length < 5 → r.trend_direction = "neutral")) ∧
    (∀ (symbol : String) (raw : RawChart) (r : PriceAnalysisResult),
      raw.closes.headD none = none → deriveResult symbol raw = .ok r →
      r.price_change_percentage = 0) ∧
    ((deriveResult "AAPL" flatChart).toOption.map (·.trend_direction) = some "neutral" ∧
     (deriveResult "AAPL" flatChart).toOption.map (·.price_change_percentage) = some 0 ∧
     ((deriveResult "AAPL" flatChart).toOption.bind (·.moving_averages)).map (·.ma20)
       = some 100) := by
  refine ⟨?_, ?_, ?_⟩
  · intro symbol raw cs hcs hne
    obtain ⟨c, cs', rfl⟩ := List.exists_cons_of_ne_nil hne
    simpa using deriveResult_all_some symbol raw c cs' hcs
  · intro symbol raw r hhead hok
    have hpct : priceChangePctE raw.closes = .ok 0 := by
      match hcl : raw.closes with
      | [] => simp [priceChangePctE, startPriceOpt, currentPriceOpt]
      | none :: rest => rfl
      | some c :: rest => rw [hcl] at hhead; simp at hhead
    simp only [deriveResult, hpct] at hok
    cases htr : trendDirectionE raw.closes with
    | error e => rw [htr] at hok; simp at hok
    | ok trend =>
      rw [htr] at hok
      cases hcp : currentPriceOpt raw.closes with
      | none => rw [hcp] at hok; simp at hok
      | some cp =>
        rw [hcp] at hok
        simp only [Except.ok.injEq] at hok
        rw [← hok]
        simp [round2]
  · have h30 : (List.replicate 30 (some (100:ℚ)))
        = [some 100, some 100, some 100, some 100, some 100, some 100, some 100, some 100,
           some 100, some 100, some 100, some 100, some 100, some 100, some 100, some 100,
           some 100, some 100, some 100, some 100, some 100, some 100, some 100, some 100,
           some 100, some 100, some 100, some 100, some 100, some 100] := by rfl
    refine ⟨?_, ?_, ?_⟩ <;>
      simp [deriveResult, flatChart, trendDirectionE, priceChangePctE, currentPriceOpt,
        startPriceOpt, calcMovingAverages, takeLast, round2, Except.toOption, h30] <;>
      norm_num

/-- Witness for C2: the general part at the concrete closes series
`[1, 2, 3]`. -/
theorem c2_price_data_derivation_witness :
    ∃ r, deriveResult "T" witChart = .ok r ∧
      r.current_price = ([1, 2, 3] : List ℚ).getLastD 0 ∧
      r.price_change_percentage =
        round2 (if ([1, 2, 3] : List ℚ).headD 0 = 0 then 0
                else ((([1, 2, 3] : List ℚ).getLastD 0 - ([1, 2, 3] : List ℚ).headD 0)
                  / ([1, 2, 3] : List ℚ).headD 0 * 100)) ∧
      (5 ≤ ([1, 2, 3] : List ℚ).length →
        r.trend_direction =
          (if ([1, 2, 3] : List ℚ).getLastD 0
              > ([1, 2, 3] : List ℚ).getD (([1, 2, 3] : List ℚ).length - 5) 0 then "bullish"
           else if ([1, 2, 3] : List ℚ).getLastD 0
              < ([1, 2, 3] : List ℚ).getD (([1, 2, 3] : List ℚ).length - 5) 0 then "bearish"
           else "neutral")) ∧
      (([1, 2, 3] : List ℚ).length < 5 → r.trend_direction = "neutral") :=
  c2_price_data_derivation.1 "T" witChart [1, 2, 3] rfl (by simp)

/-- Claim C10: `get_price_data` never propagates an exception: a raising
fetch yields `None`, a raising derivation yields `None`, and otherwise the
caller receives the fully populated result record. -/
theorem c10_get_price_data_never_raises :
    (∀ (symbol e : String), getPriceData symbol (.error e) = none) ∧
    (∀ (symbol : String) (raw : RawChart) (e : String),
      deriveResult symbol raw = .error e → getPriceData symbol (.ok raw) = none) ∧
    (∀ (symbol : String) (raw : RawChart) (r : PriceAnalysisResult),
      deriveResult symbol raw = .ok r → getPriceData symbol (.ok raw) = some r) := by
  refine ⟨fun _ _ => rfl, ?_, ?_⟩
  · intro symbol raw e h
    simp [getPriceData, h]
  · intro symbol raw r h
    simp [getPriceData, h]

/-- Witness for C10: the derivation on `errChart` raises a `TypeError` and
the fetcher returns `None` for it. -/
theorem c10_get_price_data_never_raises_witness :
    getPriceData "T" (.ok errChart) = none :=
  c10_get_price_data_never_raises.2.1 "T" errChart "TypeError"
    (by simp [deriveResult, errChart, priceChangePctE, startPriceOpt, currentPriceOpt])

/-! ### C6: support/resistance levels -/

lemma listMin_mem (ps : List ℚ) : ∀ p, listMin p ps ∈ p :: ps := by
  induction ps with
  | nil => intro p; simp [listMin]
  | cons q t ih =>
    intro p
    show listMin (min p q) t ∈ p :: q :: t
    have h := ih (min p q)
    rcases List.mem_cons.mp h with h2 | h2
    · rcases min_choice p q with h1 | h1
      · rw [h2, h1]; exact List.mem_cons_self _ _
      · rw [h2, h1]; exact List.mem_cons_of_mem _ (List.mem_cons_self _ _)
    · exact List.mem_cons_of_mem _ (List.mem_cons_of_mem _ h2)

lemma listMin_le (ps : List ℚ) : ∀ p x, x ∈ p :: ps → listMin p ps ≤ x := by
  induction ps with
  | nil =>
    intro p x hx
    rcases List.mem_cons.mp hx with h | h
    · simp [listMin, h]
    · simp at h
  | cons q t ih =>
    intro p x hx
    show listMin (min p q) t ≤ x
    rcases List.mem_cons.mp hx with h | h
    · calc listMin (min p q) t ≤ min p q := ih (min p q) (min p q) (List.mem_cons_self _ _)
        _ ≤ p := min_le_left _ _
        _ = x := h.symm
    · rcases List.mem_cons.mp h with h3 | h3
      · calc listMin (min p q) t ≤ min p q := ih (min p q) (min p q) (List.mem_cons_self _ _)
          _ ≤ q := min_le_right _ _
          _ = x := h3.symm
      · exact ih (min p q) x (List.mem_cons_of_mem _ h3)

lemma listMax_mem (ps : List ℚ) : ∀ p, listMax p ps ∈ p :: ps := by
  induction ps with
  | nil => intro p; simp [listMax]
  | cons q t ih =>
    intro p
    show listMax (max p q) t ∈ p :: q :: t
    have h := ih (max p q)
    rcases List.mem_cons.mp h with h2 | h2
    · rcases max_choice p q with h1 | h1
      · rw [h2, h1]; exact List.mem_cons_self _ _
      · rw [h2, h1]; exact List.mem_cons_of_mem _ (List.mem_cons_self _ _)
    · exact List.mem_cons_of_mem _ (List.mem_cons_of_mem _ h2)

lemma le_listMax (ps : List ℚ) : ∀ p x, x ∈ p :: ps → x ≤ listMax p ps := by
  induction ps with
  | nil =>
    intro p x hx
    rcases List.mem_cons.mp hx with h | h
    · simp [listMax, h]
    · simp at h
  | cons q t ih =>
    intro p x hx
    show x ≤ listMax (max p q) t
    rcases List.mem_cons.mp hx with h | h
    · calc x = p := h
        _ ≤ max p q := le_max_left _ _
        _ ≤ listMax (max p q) t := ih (max p q) (max p q) (List.mem_cons_self _ _)
    · rcases List.mem_cons.mp h with h3 | h3
      · calc x = q := h3
          _ ≤ max p q := le_max_right _ _
          _ ≤ listMax (max p q) t := ih (max p q) (max p q) (List.mem_cons_self _ _)
      · exact ih (max p q) x (List.mem_cons_of_mem _ h3)

/-- Claim C6: `_calculate_support_resistance` returns the rounded minimum
(support) resp. maximum (resistance) of the non-null values as the first
level, and appends exactly one extra level (`sorted[n // 10]` for support,
`sorted[-n // 10]`, i.e. index `n - ceil(n/10)`, for resistance) iff the
non-null count exceeds 10; an empty or all-null series yields `[]`. -/
theorem c6_support_resistance_levels :
    (∀ (prices : List (Option ℚ)) (p : ℚ) (ps : List ℚ),
      prices.filterMap id = p :: ps →
      ((calcSupportResistance prices "support").headD 0 = round2 (listMin p ps) ∧
       listMin p ps ∈ p :: ps ∧ (∀ x ∈ p :: ps, listMin p ps ≤ x) ∧
       (calcSupportResistance prices "resistance").headD 0 = round2 (listMax p ps) ∧
       listMax p ps ∈ p :: ps ∧ (∀ x ∈ p :: ps, x ≤ listMax p ps)) ∧
      (10 < (p :: ps).length →
        calcSupportResistance prices "support"
          = [round2 (listMin p ps),
             round2 (((p :: ps).insertionSort (· ≤ ·)).getD ((p :: ps).length / 10) 0)] ∧
        calcSupportResistance prices "resistance"
          = [round2 (listMax p ps),
             round2 (((p :: ps).insertionSort (· ≤ ·)).getD
               ((p :: ps).length - ((p :: ps).length + 9) / 10) 0)]) ∧
      ((p :: ps).length ≤ 10 →
        calcSupportResistance prices "support" = [round2 (listMin p ps)] ∧
        calcSupportResistance prices "resistance" = [round2 (listMax p ps)])) ∧
    (∀ (prices : List (Option ℚ)), prices.filterMap id = [] →
      ∀ levelType, calcSupportResistance prices levelType = []) := by
  constructor
  · intro prices p ps h
    match prices with
    | [] => simp at h
    | a :: as =>
      have hsup : calcSupportResistance (a :: as) "support"
          = (if (p :: ps).length > 10
             then [listMin p ps,
                   ((p :: ps).insertionSort (· ≤ ·)).getD ((p :: ps).length / 10) 0]
             else [listMin p ps]).map round2 := by
        simp [calcSupportResistance, h]
      have hres : calcSupportResistance (a :: as) "resistance"
          = (if (p :: ps).length > 10
             then [listMax p ps,
                   ((p :: ps).insertionSort (· ≤ ·)).getD
                     ((p :: ps).length - ((p :: ps).length + 9) / 10) 0]
             else [listMax p ps]).map round2 := by
        simp [calcSupportResistance, h]
      refine ⟨⟨?_, listMin_mem ps p, listMin_le ps p, ?_, listMax_mem ps p, le_listMax ps p⟩,
        ?_, ?_⟩
      · rw [hsup]; by_cases hn : 10 < ps.length + 1 <;> simp [hn]
      · rw [hres]; by_cases hn : 10 < ps.length + 1 <;> simp [hn]
      · intro hn
        simp only [List.length_cons] at hn
        rw [hsup, hres]; simp [hn]
      · intro hn
        simp only [List.length_cons] at hn
        rw [hsup, hres]; simp [Nat.not_lt.mpr hn]
  · intro prices h levelType
    match prices with
    | [] => rfl
    | a :: as => simp [calcSupportResistance, h]

/-- Witness for C6: a three-sample series takes the single-level branch. -/
theorem c6_support_resistance_levels_witness :
    calcSupportResistance [some 3, some 1, some 2] "support" = [round2 (listMin 3 [1, 2])] ∧
    calcSupportResistance [some 3, some 1, some 2] "resistance" = [round2 (listMax 3 [1, 2])] :=
  (c6_support_resistance_levels.1 [some 3, some 1, some 2] 3 [1, 2] rfl).2.2 (by simp)

/-- Claim C3: for every article list, `fear_greed_index` is
`clamp(0, 100, int(100 * positive_ratio + adjustment))` over the truthy
article sentiments, with adjustment +10, -10 or 0 for a positive, negative or
neutral majority sentiment; the result always lies in [0, 100]; an empty list
yields `overall_sentiment` "neutral" and index 50. -/
theorem c3_fear_greed_index :
    (∀ (articles : List NewsArticle), 0 < (truthySentiments articles).length →
      calculateFearGreedIndex articles =
        max 0 (min 100 (intTrunc
          (100 * (((truthySentiments articles).count "positive" : ℚ)
              / ((truthySentiments articles).length : ℚ))
            + (if calculateOverallSentiment articles = "positive" then 10
               else if calculateOverallSentiment articles = "negative" then -10 else 0))))) ∧
    (∀ (articles : List NewsArticle),
      0 ≤ calculateFearGreedIndex articles ∧ calculateFearGreedIndex articles ≤ 100) ∧
    (calculateOverallSentiment [] = "neutral" ∧ calculateFearGreedIndex [] = 50) := by
  refine ⟨?_, ?_, rfl, rfl⟩
  · intro articles h
    match articles with
    | [] => simp [truthySentiments] at h
    | a :: as =>
      have htot : ¬ (truthySentiments (a :: as)).length = 0 := by omega
      simp only [calculateFearGreedIndex, htot, if_false, ite_false]
      congr 3
      ring
  · intro articles
    match articles with
    | [] =>
      constructor <;> simp [calculateFearGreedIndex]
    | a :: as =>
      simp only [calculateFearGreedIndex]
      by_cases htot : (truthySentiments (a :: as)).length = 0 <;> simp [htot] <;>
        exact ⟨le_max_left _ _, max_le (by norm_num) (min_le_left _ _)⟩

/-- Witness for C3: the formula clause at a single positive article. -/
theorem c3_fear_greed_index_witness :
    calculateFearGreedIndex [witArticle] =
      max 0 (min 100 (intTrunc
        (100 * (((truthySentiments [witArticle]).count "positive" : ℚ)
            / ((truthySentiments [witArticle]).length : ℚ))
          + (if calculateOverallSentiment [witArticle] = "positive" then 10
             else if calculateOverallSentiment [witArticle] = "negative" then -10 else 0)))) :=
  c3_fear_greed_index.1 [witArticle] (by decide)

/-- Claim C8: with no news credential, and on a failing live fetch, the mock
table drives the result: "AAPL" yields exactly 3 articles under the default
cap with overall sentiment "positive" (2 positive, 1 negative); the overall
sentiment is the majority vote with ties neutral; unknown symbols share the
generic fallback table. -/
theorem c8_mock_news_fallback :
    ((getMockNews "AAPL" 5).articles.length = 3 ∧
     (getMockNews "AAPL" 5).overall_sentiment = "positive") ∧
    (∀ (symbol : String) (maxResults : ℕ) (live : Except String NewsAnalysisResult),
      getFinancialNews none live symbol maxResults = getMockNews symbol maxResults) ∧
    (∀ (apiKey symbol e : String) (maxResults : ℕ),
      getFinancialNews (some apiKey) (.error e) symbol maxResults
        = getMockNews symbol maxResults) ∧
    (∀ (articles : List NewsArticle),
      ((truthySentiments articles).count "negative" < (truthySentiments articles).count "positive"
        → calculateOverallSentiment articles = "positive") ∧
      ((truthySentiments articles).count "positive" < (truthySentiments articles).count "negative"
        → calculateOverallSentiment articles = "negative") ∧
      ((truthySentiments articles).count "positive" = (truthySentiments articles).count "negative"
        → calculateOverallSentiment articles = "neutral")) ∧
    (∀ (symbolUpper : String),
      symbolUpper ≠ "AAPL" → symbolUpper ≠ "TSLA" → symbolUpper ≠ "BTC" →
      mockNewsTable symbolUpper = mockNewsTable "UNKNOWN") := by
  refine ⟨⟨by decide, by decide⟩, fun _ _ _ => rfl, fun _ _ _ _ => rfl, ?_, ?_⟩
  · intro articles
    match articles with
    | [] =>
      refine ⟨fun h => by simp [truthySentiments] at h,
        fun h => by simp [truthySentiments] at h, fun _ => rfl⟩
    | a :: as =>
      refine ⟨fun h => ?_, fun h => ?_, fun h => ?_⟩
      · simp [calculateOverallSentiment, h]
      · have h2 : ¬ (truthySentiments (a :: as)).count "negative"
            < (truthySentiments (a :: as)).count "positive" := by omega
        simp [calculateOverallSentiment, h, h2]
      · have h2 : ¬ (truthySentiments (a :: as)).count "negative"
            < (truthySentiments (a :: as)).count "positive" := by omega
        have h3 : ¬ (truthySentiments (a :: as)).count "positive"
            < (truthySentiments (a :: as)).count "negative" := by omega
        simp [calculateOverallSentiment, h2, h3]
  · intro symbolUpper h1 h2 h3
    simp [mockNewsTable, h1, h2, h3]

/-- Witness for C8: the majority clause at the AAPL mock articles. -/
theorem c8_mock_news_fallback_witness :
    calculateOverallSentiment (getMockNews "AAPL" 5).articles = "positive" :=
  (c8_mock_news_fallback.2.2.2.1 (getMockNews "AAPL" 5).articles).1 (by decide)

/-- Counterexample to C1 as stated: when the underlying live news fetch
raises, `get_news_sentiment` does not return neutral placeholders — it
returns the mock-derived result for "AAPL": overall sentiment "positive",
fear/greed index 76 (a fabricated non-zero value) and non-empty headlines. -/
theorem c1_counterexample :
    (getNewsSentiment "AAPL" 5 (some "key") (.error "connection error")).overall_sentiment
        = "positive" ∧
    (getNewsSentiment "AAPL" 5 (some "key") (.error "connection error")).fear_greed_index
        = some 76 ∧
    (getNewsSentiment "AAPL" 5 (some "key") (.error "connection error")).top_headlines ≠ [] := by
  refine ⟨by decide, ?_, by decide⟩
  have hup : pyUpper "AAPL" = "AAPL" := by decide
  simp [getNewsSentiment, getNewsSentimentImpl, getFinancialNews, getMockNews, mockNewsTable,
    hup, calculateFearGreedIndex, truthySentiments, calculateOverallSentiment, intTrunc,
    List.enum, List.enumFrom]
  norm_num

/-- Claim C1 amended: a raising price fetch yields the all-zero placeholder
with an error string; a raising news *tool call* yields the neutral
placeholder with a risk_factors entry; but a raising news *fetch* is absorbed
by `get_financial_news` into the deterministic mock-derived result. -/
theorem c1_error_placeholders :
    (∀ (symbol period e : String),
      getPriceAnalysisImpl symbol period (.error e) = zeroPriceResponse symbol period) ∧
    (∀ (symbol e : String),
      getNewsSentimentImpl symbol (.error e) = neutralNewsResponse symbol e) ∧
    (∀ (symbol : String) (maxResults : ℕ) (apiKey e : String),
      getNewsSentiment symbol maxResults (some apiKey) (.error e)
        = getNewsSentimentImpl symbol (.ok (getMockNews symbol maxResults))) :=
  ⟨fun _ _ _ => rfl, fun _ _ => rfl, fun _ _ _ _ => rfl⟩

/-- Counterexample to C4 as stated: with a zero `current_price` and a
bullish trend the code emits no trend phrase at all (the claim's trend rule
omits the `current_price > 0` gate), so only the generic fallback remains. -/
theorem c4_counterexample :
    cxPrice.trend_direction = "bullish" ∧ cxPrice.volume_trend = "increasing" ∧
    generateCombinedInsights cxPrice cxNews
      = ["Analysis completed with available market data"] := by
  refine ⟨rfl, rfl, ?_⟩
  simp [generateCombinedInsights, rawCombinedInsights, finalizeInsights, cxPrice, cxNews]

/-- Claim C4 amended: `key_insights` has between 1 and 5 entries for every
input pair, and equals the fixed-order rule list of the claim amended by the
`current_price > 0` gate on the two price phrases, truncated at 5, with the
generic fallback when no rule fires. -/
theorem c4_combined_insights :
    (∀ (p : PriceResponse) (n : NewsSentimentResponse),
      1 ≤ (generateCombinedInsights p n).length ∧ (generateCombinedInsights p n).length ≤ 5) ∧
    (∀ (p : PriceResponse) (n : NewsSentimentResponse) (g : ℤ),
      n.fear_greed_index = some g →
      generateCombinedInsights p n =
        (if specInsightRules p n g = []
         then ["Analysis completed with available market data"]
         else (specInsightRules p n g).take 5)) := by
  constructor
  · intro p n
    have hdef : generateCombinedInsights p n = finalizeInsights (rawCombinedInsights p n) := rfl
    rw [hdef]
    cases hl : rawCombinedInsights p n with
    | nil => simp [finalizeInsights]
    | cons x xs =>
      constructor <;> simp [finalizeInsights, List.length_take] <;> omega
  · intro p n g hg
    have key : rawCombinedInsights p n = specInsightRules p n g := by
      unfold rawCombinedInsights specInsightRules
      rw [hg]
      by_cases h1 : p.current_price > 0 <;>
        by_cases h2 : p.trend_direction = "bullish" <;>
        by_cases h3 : p.trend_direction = "bearish" <;>
        by_cases h5 : n.overall_sentiment = "positive" <;>
        by_cases h7 : g > 70 <;>
        first
        | (exfalso; rw [h2] at h3; exact absurd h3 (by decide))
        | (cases hh : n.top_headlines <;>
            simp [h1, h2, h3, h5, h7, hh] <;> omega)
    have hdef : generateCombinedInsights p n = finalizeInsights (rawCombinedInsights p n) := rfl
    rw [hdef, key]
    cases hr : specInsightRules p n g with
    | nil => simp [finalizeInsights]
    | cons x xs => simp [finalizeInsights, hr]

/-- Witness for C4: the amended rule-list clause at the counterexample
inputs (fear/greed present, no rule fires). -/
theorem c4_combined_insights_witness :
    generateCombinedInsights cxPrice cxNews =
      (if specInsightRules cxPrice cxNews 50 = []
       then ["Analysis completed with available market data"]
       else (specInsightRules cxPrice cxNews 50).take 5) :=
  c4_combined_insights.2 cxPrice cxNews 50 rfl

/-! ### C9: append-only conversation store -/

lemma runAppends_spec (appends : List (String × String × ℕ)) :
    ∀ (repo : Repo) (cid : String) (conv : Conversation), repo cid = some conv →
    ∃ repo2, runAppends repo cid appends = .ok repo2 ∧
      repo2 cid = some { conv with
        messages := conv.messages ++ appends.map mkStored
        updated_at := (appends.map (fun a => a.2.2)).getLastD conv.updated_at } ∧
      ∀ id, id ≠ cid → repo2 id = repo id := by
  induction appends with
  | nil =>
    intro repo cid conv h
    refine ⟨repo, rfl, ?_, fun _ _ => rfl⟩
    simpa using h
  | cons a rest ih =>
    intro repo cid conv h
    rcases a with ⟨role, content, now⟩
    have hadd : addMessage repo cid role content now = .ok fun id =>
        if id = cid then some (pushTurn conv role content now) else repo id := by
      simp [addMessage, h, pushTurn]
    obtain ⟨repo2, hrun, hcid, hother⟩ := ih
      (fun id => if id = cid then some (pushTurn conv role content now) else repo id)
      cid (pushTurn conv role content now) (by simp)
    refine ⟨repo2, ?_, ?_, ?_⟩
    · simp only [runAppends, hadd]
      exact hrun
    · rw [hcid]
      simp only [pushTurn, mkStored, List.map_cons, List.getLastD_cons, List.append_assoc,
        List.singleton_append]
    · intro id hid
      rw [hother id hid]
      simp [hid]

/-- Claim C9: the conversation store is strictly append-only: starting from a
freshly created conversation, N `add_message` calls leave exactly the N turns
in call order in `get_conversation_messages`; a single append extends the
message list by exactly one turn at the end, touches no other conversation,
and bumps `updated_at` to the append's clock. -/
theorem c9_append_only_store :
    (∀ (repo : Repo) (cid userId : String) (t0 : ℕ) (appends : List (String × String × ℕ)),
      ∃ repo2, runAppends (createConversation repo cid userId t0) cid appends = .ok repo2 ∧
        getConversationMessages repo2 cid = .ok (appends.map mkStored)) ∧
    (∀ (repo : Repo) (cid : String) (conv : Conversation) (role content : String) (now : ℕ),
      repo cid = some conv →
      ∃ repo2, addMessage repo cid role content now = .ok repo2 ∧
        repo2 cid = some (pushTurn conv role content now) ∧
        ∀ id, id ≠ cid → repo2 id = repo id) := by
  constructor
  · intro repo cid userId t0 appends
    obtain ⟨repo2, hrun, hcid, _⟩ := runAppends_spec appends
      (createConversation repo cid userId t0) cid
      { conversation_id := cid, user_id := userId, messages := [], created_at := t0,
        updated_at := t0 }
      (by simp [createConversation])
    exact ⟨repo2, hrun, by simp [getConversationMessages, getConversation, hcid, Except.map]⟩
  · intro repo cid conv role content now h
    refine ⟨fun id => if id = cid then some (pushTurn conv role content now) else repo id,
      ?_, by simp, fun id hid => by simp [hid]⟩
    simp [addMessage, h, pushTurn]

/-- Witness for C9: two appends to a fresh conversation yield exactly those
two turns in order, and a single append on an existing conversation pushes
exactly one turn. -/
theorem c9_append_only_store_witness :
    (∃ repo2, runAppends (createConversation (fun _ => none) "c1" "u" 0) "c1"
        [("user", "hi", 1), ("assistant", "hello", 2)] = .ok repo2 ∧
      getConversationMessages repo2 "c1"
        = .ok ([("user", "hi", 1), ("assistant", "hello", 2)].map mkStored)) ∧
    (∃ repo2, addMessage (createConversation (fun _ => none) "c1" "u" 0) "c1" "user" "hi" 1
        = .ok repo2 ∧
      repo2 "c1" = some (pushTurn
        { conversation_id := "c1", user_id := "u", messages := [], created_at := 0,
          updated_at := 0 } "user" "hi" 1) ∧
      ∀ id, id ≠ "c1" → repo2 id = createConversation (fun _ => none) "c1" "u" 0 id) :=
  ⟨c9_append_only_store.1 (fun _ => none) "c1" "u" 0
    [("user", "hi", 1), ("assistant", "hello", 2)],
   c9_append_only_store.2 (createConversation (fun _ => none) "c1" "u" 0) "c1"
    { conversation_id := "c1", user_id := "u", messages := [], created_at := 0,
      updated_at := 0 } "user" "hi" 1 rfl⟩

/-- Claim C5: every `process_message` call either succeeds with the user and
assistant turns appended together to the resolved conversation, or fails
with the exception wrapped as a single "Message processing failed: …" error,
the repository carrying no partial append; `process_message` itself is the
step-1 resolution composed with the core. -/
theorem c5_process_message_atomicity :
    (∀ (repo1 : Repo) (cid message agentType : String) (context : List (String × String))
       (now : ℕ) (agentAvailable : Bool) (agentOutcome : Except String String),
      (∃ (resp : ChatResponse) (conv : Conversation),
        (processMessageCore repo1 cid message agentType context now agentAvailable
            agentOutcome).1 = .ok resp ∧
        repo1 cid = some conv ∧
        ((processMessageCore repo1 cid message agentType context now agentAvailable
            agentOutcome).2 cid).map (·.messages)
          = some (conv.messages
              ++ [{ role := "user", content := message, timestamp := now },
                  { role := "assistant", content := resp.response, timestamp := now }]))
      ∨ (∃ e, (processMessageCore repo1 cid message agentType context now agentAvailable
            agentOutcome).1 = .error ("Message processing failed: " ++ e) ∧
          ∀ id, (processMessageCore repo1 cid message agentType context now agentAvailable
            agentOutcome).2 id = repo1 id)) ∧
    (∀ (repo : Repo) (message agentType : String) (conversationId : Option String)
       (context : List (String × String)) (freshId : String) (now : ℕ)
       (agentAvailable : Bool) (agentOutcome : Except String String),
      processMessage repo message agentType conversationId context freshId now
          agentAvailable agentOutcome
        = processMessageCore (resolvedRepo repo conversationId freshId now)
            (resolvedCid conversationId freshId) message agentType context now
            agentAvailable agentOutcome) := by
  constructor
  · intro repo1 cid message agentType context now agentAvailable agentOutcome
    cases agentAvailable with
    | false =>
      right
      exact ⟨"Agent type " ++ agentType ++ " not available", rfl, fun _ => rfl⟩
    | true =>
      cases hconv : repo1 cid with
      | none =>
        right
        refine ⟨"Conversation " ++ cid ++ " not found", ?_, ?_⟩ <;>
          simp [processMessageCore, getConversationMessages, getConversation, hconv, Except.map]
      | some conv =>
        cases agentOutcome with
        | error e =>
          right
          refine ⟨e, ?_, ?_⟩ <;>
            simp [processMessageCore, getConversationMessages, getConversation, hconv,
              Except.map]
        | ok responseText =>
          left
          have hadd1 : addMessage repo1 cid "user" message now = .ok fun id =>
              if id = cid then some (pushTurn conv "user" message now) else repo1 id := by
            simp [addMessage, hconv, pushTurn]
          have hadd2 : addMessage
              (fun id => if id = cid then some (pushTurn conv "user" message now) else repo1 id)
              cid "assistant" responseText now = .ok fun id =>
              if id = cid then
                some (pushTurn (pushTurn conv "user" message now) "assistant" responseText now)
              else if id = cid then some (pushTurn conv "user" message now) else repo1 id := by
            simp [addMessage, pushTurn]
          have hcore : processMessageCore repo1 cid message agentType context now true
              (.ok responseText)
              = (.ok ⟨responseText, cid, agentType, now⟩,
                 fun id => if id = cid then
                   some (pushTurn (pushTurn conv "user" message now) "assistant"
                     responseText now)
                 else if id = cid then some (pushTurn conv "user" message now)
                 else repo1 id) := by
            simp only [processMessageCore, getConversationMessages, getConversation, hconv,
              Except.map, hadd1, hadd2, Bool.not_true, Bool.false_eq_true, if_false, ite_false]
          refine ⟨⟨responseText, cid, agentType, now⟩, conv, ?_, rfl, ?_⟩
          · rw [hcore]
          · rw [hcore]
            simp [pushTurn]
  · intro repo message agentType conversationId context freshId now agentAvailable agentOutcome
    cases conversationId with
    | none => simp [processMessage, resolvedRepo, resolvedCid]
    | some c =>
      by_cases hc : c = "" <;>
        simp [processMessage, resolvedRepo, resolvedCid, hc]

/-! ### C7: prompt enrichment -/

lemma endsWithStr_of_append (p m : String) : endsWithStr (p ++ m) m = true := by
  have : (p ++ m).data = p.data ++ m.data := rfl
  simp [endsWithStr, this, List.isSuffixOf_iff_suffix, List.suffix_append]

lemma endsWith_joinLines_append (A rest : List String) (m : String) (hne : rest ≠ [])
    (h : endsWithStr (joinLines rest) m = true) :
    endsWithStr (joinLines (A ++ rest)) m = true := by
  induction A with
  | nil => simpa
  | cons a as ih =>
    cases hr : as ++ rest with
    | nil => exact absurd (List.append_eq_nil.mp hr).2 hne
    | cons b bs =>
      have hstep : joinLines ((a :: as) ++ rest) = a ++ "\n" ++ joinLines (b :: bs) := by
        simp only [List.cons_append, hr, joinLines]
      rw [hstep]
      rw [hr] at ih
      simp only [endsWithStr, List.isSuffixOf_iff_suffix] at ih ⊢
      have hdata : (a ++ "\n" ++ joinLines (b :: bs)).data
          = (a ++ "\n").data ++ (joinLines (b :: bs)).data := rfl
      rw [hdata]
      exact ih.trans (List.suffix_append _ _)

lemma endsWith_joinLines (lines : List String) (p m : String) :
    endsWithStr (joinLines (lines ++ [p ++ m])) m = true := by
  refine endsWith_joinLines_append lines [p ++ m] m (by simp) ?_
  simpa [joinLines] using endsWithStr_of_append p m

lemma member_length_le_joinLines (lines : List String) :
    ∀ s ∈ lines, s.length ≤ (joinLines lines).length := by
  induction lines with
  | nil => simp
  | cons a rest ih =>
    intro s hs
    cases rest with
    | nil =>
      have h : s = a := by simpa using hs
      subst h
      exact le_refl _
    | cons b bs =>
      rw [show joinLines (a :: b :: bs) = a ++ "\n" ++ joinLines (b :: bs) from rfl,
        String.length_append, String.length_append]
      rcases List.mem_cons.mp hs with h | h
      · subst h; omega
      · have := ih s h; omega

lemma enhance_over_budget (message : String) (history : List StoredMsg)
    (kv : String × String) (ctx : List (String × String)) (conversationId : String)
    (h : 4000 < (joinLines (enhanceContextLines message history (kv :: ctx))).length) :
    enhanceMessageWithContext message history (kv :: ctx) conversationId
      = "Conversation ID: " ++ conversationId ++ "\n\nQuestion: " ++ message
        ++ "\n\nUser context: " ++ reprDict (kv :: ctx) := by
  unfold enhanceMessageWithContext
  rw [if_pos (by omega)]

lemma big_prompt_over_budget :
    4000 < (joinLines (enhanceContextLines "Q"
      [{ role := "user", content := bigContent, timestamp := 0 }] [("k", "v")])).length := by
  have hb : bigContent.length = 4000 := by
    rw [show bigContent.length = (List.replicate 4000 (Char.ofNat 97)).length from rfl,
      List.length_replicate]
  have h1 : enhanceContextLines "Q" [{ role := "user", content := bigContent, timestamp := 0 }]
      [("k", "v")]
      = ["Previous conversation:", "User" ++ ": " ++ bigContent, "", "User context:",
         "- " ++ "k" ++ ": " ++ "v", "", "Current question: " ++ "Q"] := by
    rfl
  have hmem : ("User" ++ ": " ++ bigContent)
      ∈ enhanceContextLines "Q" [{ role := "user", content := bigContent, timestamp := 0 }]
        [("k", "v")] := by
    rw [h1]
    exact List.mem_cons_of_mem _ (List.mem_cons_self _ _)
  have hlen2 : 4000 < ("User" ++ ": " ++ bigContent).length := by
    rw [String.length_append, String.length_append, hb,
      show ("User" : String).length = 4 from rfl, show (": " : String).length = 2 from rfl]
    omega
  exact lt_of_lt_of_le hlen2 (member_length_le_joinLines _ _ hmem)

/-- Counterexample to C7 as stated: a 4000-character history entry pushes the
assembled prompt over the budget, and with user context present the fallback
appends the stringified context *after* the question, so the returned prompt
does not end with the current question. -/
theorem c7_counterexample :
    enhanceMessageWithContext "Q" [{ role := "user", content := bigContent, timestamp := 0 }]
        [("k", "v")] "c"
      = "Conversation ID: c\n\nQuestion: Q\n\nUser context: \x7b\x27k\x27: \x27v\x27\x7d" ∧
    endsWithStr
      (enhanceMessageWithContext "Q" [{ role := "user", content := bigContent, timestamp := 0 }]
        [("k", "v")] "c") "Q" = false := by
  have hres := enhance_over_budget "Q"
    [{ role := "user", content := bigContent, timestamp := 0 }] ("k", "v") [] "c"
    big_prompt_over_budget
  rw [hres]
  constructor <;> decide

/-- Claim C7 amended: within the 4000-character budget the enriched prompt is
the assembled context block ending with the literal current question; over
budget it is replaced by the short fallback, which still ends with the
question when no user context is given but carries the stringified user
context after the question otherwise. -/
theorem c7_enhanced_prompt :
    (∀ (message : String) (history : List StoredMsg) (userContext : List (String × String))
       (conversationId : String),
      (joinLines (enhanceContextLines message history userContext)).length ≤ 4000 →
      enhanceMessageWithContext message history userContext conversationId
        = joinLines (enhanceContextLines message history userContext) ∧
      endsWithStr (enhanceMessageWithContext message history userContext conversationId)
        message = true) ∧
    (∀ (message : String) (history : List StoredMsg) (conversationId : String),
      4000 < (joinLines (enhanceContextLines message history [])).length →
      enhanceMessageWithContext message history [] conversationId
        = simplifiedPrompt conversationId message ∧
      endsWithStr (enhanceMessageWithContext message history [] conversationId)
        message = true) ∧
    (∀ (message : String) (history : List StoredMsg) (kv : String × String)
       (userContext : List (String × String)) (conversationId : String),
      4000 < (joinLines (enhanceContextLines message history (kv :: userContext))).length →
      enhanceMessageWithContext message history (kv :: userContext) conversationId
        = simplifiedPrompt conversationId message
          ++ "\n\nUser context: " ++ reprDict (kv :: userContext)) := by
  refine ⟨?_, ?_, ?_⟩
  · intro message history userContext conversationId hlen
    have hres : enhanceMessageWithContext message history userContext conversationId
        = joinLines (enhanceContextLines message history userContext) := by
      unfold enhanceMessageWithContext
      rw [if_neg (by omega)]
    refine ⟨hres, ?_⟩
    rw [hres]
    unfold enhanceContextLines
    exact endsWith_joinLines (histLines history ++ ctxLines userContext)
      "Current question: " message
  · intro message history conversationId hlen
    have hres : enhanceMessageWithContext message history [] conversationId
        = simplifiedPrompt conversationId message := by
      unfold enhanceMessageWithContext simplifiedPrompt
      rw [if_pos (by omega)]
    refine ⟨hres, ?_⟩
    rw [hres]
    unfold simplifiedPrompt
    rw [show "Conversation ID: " ++ conversationId ++ "\n\nQuestion: " ++ message
      = ("Conversation ID: " ++ conversationId ++ "\n\nQuestion: ") ++ message from rfl]
    exact endsWithStr_of_append _ _
  · intro message history kv userContext conversationId hlen
    unfold enhanceMessageWithContext simplifiedPrompt
    rw [if_pos (by omega)]

/-- Witness for C7: the within-budget clause at a tiny prompt. -/
theorem c7_enhanced_prompt_witness :
    enhanceMessageWithContext "hello" [] [] "c" = joinLines (enhanceContextLines "hello" [] []) ∧
    endsWithStr (enhanceMessageWithContext "hello" [] [] "c") "hello" = true :=
  c7_enhanced_prompt.1 "hello" [] [] "c" (by decide)

end FinsightAI
